import Mathlib

/-!
Shallow embedding of the paper-trading execution engine
(`src/execution/paper_broker.py` together with the data types of
`src/contracts/broker.py`).

Modelling conventions:
* Python `float` money/quantity arithmetic is embedded as `ℚ` (the code
  performs only `+ - * /` on these values, so the rational semantics is
  exact field arithmetic, which is what the specification reasons about).
* Python dicts (`account.positions`, `account.orders`, `client_orders`)
  are embedded as insertion-ordered association lists with the usual
  dict operations (lookup first match, update in place, insert at end,
  delete first match).
* `uuid.uuid4()` results and data-feed prices are external inputs, so
  they appear as explicit parameters of the operations.
* Timestamps, logging and the asyncio scheduling are dropped: an
  operation sequence is represented by an explicit list of operations
  (`BrokerOp`), each carrying the oracle inputs the corresponding
  Python coroutine would have obtained when it actually ran.
* The broker is modelled in the connected state (`create_order` and
  `cancel_order` raise `BrokerError` when disconnected, before touching
  any account state; claims are about the connected behaviour).
* A Python exception escaping one of the modelled helpers is represented
  by an `Option`/`Except` result; error message strings are abbreviated
  English stand-ins for the source's Russian messages.
-/

namespace PaperBrokerModel

/-- `OrderSide` enum of `src/contracts/broker.py`. -/
inductive OrderSide
  | BUY
  | SELL
deriving DecidableEq, Repr

/-- `OrderType` enum of `src/contracts/broker.py`. -/
inductive OrderType
  | MARKET
  | LIMIT
  | STOP
  | STOP_LIMIT
deriving DecidableEq, Repr

/-- `OrderStatus` enum of `src/contracts/broker.py`. -/
inductive OrderStatus
  | PENDING
  | SUBMITTED
  | PARTIALLY_FILLED
  | FILLED
  | CANCELLED
  | REJECTED
  | EXPIRED
deriving DecidableEq, Repr

/-- The `Order` dataclass of `src/contracts/broker.py` (timestamps and
`exchange_order_id` omitted: nothing in the engine reads them). -/
structure Order where
  id : String
  clientId : String
  symbol : String
  side : OrderSide
  type : OrderType
  quantity : ℚ
  price : Option ℚ
  stopPrice : Option ℚ
  status : OrderStatus
  filledQuantity : ℚ
  averagePrice : Option ℚ
  errorMessage : Option String
deriving DecidableEq, Repr

/-- The `Position` dataclass of `src/contracts/broker.py` (timestamp
omitted). -/
structure Position where
  symbol : String
  quantity : ℚ
  averagePrice : ℚ
  unrealizedPnl : ℚ
  realizedPnl : ℚ
deriving DecidableEq, Repr

/-- The `Execution` dataclass of `src/contracts/broker.py` (timestamp
omitted). -/
structure Execution where
  id : String
  orderId : String
  symbol : String
  side : OrderSide
  quantity : ℚ
  price : ℚ
  fee : ℚ
deriving DecidableEq, Repr

/-- The `PaperAccount` dataclass of `src/execution/paper_broker.py`. -/
structure PaperAccount where
  balance : ℚ
  positions : List (String × Position)
  orders : List (String × Order)
  executions : List Execution
  dailyPnl : ℚ
  totalPnl : ℚ
deriving DecidableEq, Repr

/-- The mutable state of a `PaperBroker` instance: its account, the
execution-setting constants assigned in `__init__` (`self.slippage`,
`self.commission`) and the `client_orders` idempotency table. -/
structure PaperBroker where
  account : PaperAccount
  slippage : ℚ
  commission : ℚ
  clientOrders : List (String × String)
deriving DecidableEq, Repr

/-- `PaperBroker.__init__`: fresh account with the given initial balance,
slippage 0.0001 and commission 0.001. -/
def mkBroker (initialBalance : ℚ) : PaperBroker :=
  { account := { balance := initialBalance, positions := [], orders := [],
                 executions := [], dailyPnl := 0, totalPnl := 0 },
    slippage := 1 / 10000,
    commission := 1 / 1000,
    clientOrders := [] }

/-- Dict lookup: value bound to the first occurrence of the key. -/
def alookup (k : String) : List (String × α) → Option α
  | [] => none
  | (k2, v) :: rest => if k2 = k then some v else alookup k rest

/-- Dict assignment `d[k] = v`: replace in place if the key is present,
append at the end otherwise (Python dicts preserve insertion order). -/
def aupdate (k : String) (v : α) : List (String × α) → List (String × α)
  | [] => [(k, v)]
  | (k2, w) :: rest =>
      if k2 = k then (k2, v) :: rest else (k2, w) :: aupdate k v rest

/-- Dict deletion `del d[k]` (no-op when the key is absent, which the
source never does). -/
def aremove (k : String) : List (String × α) → List (String × α)
  | [] => []
  | (k2, w) :: rest => if k2 = k then rest else (k2, w) :: aremove k rest

/-- Validation failures raised by `PaperBroker._validate_order`, one
constructor per `raise` site. -/
inductive BrokerErr
  | invalidQuantity
  | missingLimitPrice
  | missingStopPrice
  | nonPositiveLimitPrice
  | nonPositiveStopPrice
  | insufficientFunds
deriving DecidableEq, Repr

/-- Whether an optional price is present but non-positive (the
`price is not None and price <= 0` tests of `_validate_order`). -/
def optNonPos : Option ℚ → Prop
  | some p => p ≤ 0
  | none => False

instance (o : Option ℚ) : Decidable (optNonPos o) := by
  cases o <;> simp [optNonPos] <;> infer_instance

/-- `PaperBroker._validate_order`.  The checks run in the source order;
the data-feed price (used only by the MARKET funds pre-check) and the
account balance are passed explicitly. -/
def validateOrder (ty : OrderType) (side : OrderSide) (quantity : ℚ)
    (price stopPrice : Option ℚ) (currentPrice balance : ℚ) : Option BrokerErr :=
  if quantity ≤ 0 then some BrokerErr.invalidQuantity
  else if (ty = OrderType.LIMIT ∨ ty = OrderType.STOP_LIMIT) ∧ price = none then
    some BrokerErr.missingLimitPrice
  else if (ty = OrderType.STOP ∨ ty = OrderType.STOP_LIMIT) ∧ stopPrice = none then
    some BrokerErr.missingStopPrice
  else if optNonPos price then some BrokerErr.nonPositiveLimitPrice
  else if optNonPos stopPrice then some BrokerErr.nonPositiveStopPrice
  else if ty = OrderType.MARKET ∧ side = OrderSide.BUY ∧
      balance < quantity * currentPrice then
    some BrokerErr.insufficientFunds
  else none

/-- `PaperBroker._calculate_fill_price`.  A `none` result covers both the
source's explicit `return None` branches and the `TypeError` a missing
required price would raise there (the exception is caught by
`_process_order` and leads to the same REJECTED outcome). -/
def calcFillPrice (slippage : ℚ) (o : Order) (currentPrice : ℚ) : Option ℚ :=
  match o.type with
  | OrderType.MARKET =>
      if o.side = OrderSide.BUY then
        some (currentPrice + currentPrice * slippage)
      else
        some (currentPrice - currentPrice * slippage)
  | OrderType.LIMIT =>
      match o.price with
      | none => none
      | some lp =>
          if o.side = OrderSide.BUY ∧ currentPrice ≤ lp then some lp
          else if o.side = OrderSide.SELL ∧ lp ≤ currentPrice then some lp
          else none
  | OrderType.STOP =>
      match o.stopPrice with
      | none => none
      | some sp =>
          if o.side = OrderSide.BUY ∧ sp ≤ currentPrice then
            some (currentPrice + currentPrice * slippage)
          else if o.side = OrderSide.SELL ∧ currentPrice ≤ sp then
            some (currentPrice - currentPrice * slippage)
          else none
  | OrderType.STOP_LIMIT =>
      match o.stopPrice, o.price with
      | some sp, some lp =>
          if o.side = OrderSide.BUY ∧ sp ≤ currentPrice then
            (if currentPrice ≤ lp then some lp else none)
          else if o.side = OrderSide.SELL ∧ currentPrice ≤ sp then
            (if lp ≤ currentPrice then some lp else none)
          else none
      | _, _ => none

/-- A fresh `Position(symbol=symbol, quantity=0, average_price=0)` as
created by `_update_position` for a previously unseen symbol. -/
def freshPosition (symbol : String) : Position :=
  { symbol := symbol, quantity := 0, averagePrice := 0,
    unrealizedPnl := 0, realizedPnl := 0 }

/-- `PaperBroker._update_position` as a function on the positions dict.
The source first inserts a fresh zero position for an unseen symbol, then
mutates it, then deletes the entry when the new quantity is zero; the net
effect on the dict is as written here. -/
def updatePosition (positions : List (String × Position)) (symbol : String)
    (side : OrderSide) (quantity price : ℚ) : List (String × Position) :=
  let pos0 := (alookup symbol positions).getD (freshPosition symbol)
  let newQuantity :=
    if side = OrderSide.BUY then pos0.quantity + quantity
    else pos0.quantity - quantity
  let newAvg :=
    if newQuantity = 0 then 0
    else if (0 < pos0.quantity ∧ 0 < newQuantity) ∨
        (pos0.quantity < 0 ∧ newQuantity < 0) then
      (pos0.quantity * pos0.averagePrice + quantity * price) / newQuantity
    else price
  if newQuantity = 0 then aremove symbol positions
  else aupdate symbol
    { pos0 with quantity := newQuantity, averagePrice := newAvg } positions

/-- `PaperBroker._fill_order` for the order stored under `orderId`
(`_process_order` passes the looked-up order object; the execution id is
the `uuid4` oracle input).  The local `commission` of the source,
`order.quantity * fill_price * self.commission`, is written inline. -/
def fillOrder (b : PaperBroker) (orderId execId : String) (fillPrice : ℚ) :
    PaperBroker :=
  match alookup orderId b.account.orders with
  | none => b
  | some o =>
    if o.side = OrderSide.BUY ∧
        b.account.balance <
          o.quantity * fillPrice + o.quantity * fillPrice * b.commission then
      { b with account := { b.account with
          orders := aupdate orderId
            { o with status := OrderStatus.REJECTED,
                     errorMessage := some "insufficient funds at execution time" }
            b.account.orders } }
    else
      { b with account := { b.account with
          balance :=
            if o.side = OrderSide.BUY then
              b.account.balance -
                (o.quantity * fillPrice + o.quantity * fillPrice * b.commission)
            else
              b.account.balance +
                (o.quantity * fillPrice - o.quantity * fillPrice * b.commission),
          executions := b.account.executions ++
            [{ id := execId, orderId := o.id, symbol := o.symbol,
               side := o.side, quantity := o.quantity, price := fillPrice,
               fee := o.quantity * fillPrice * b.commission }],
          orders := aupdate orderId
            { o with status := OrderStatus.FILLED,
                     filledQuantity := o.quantity,
                     averagePrice := some fillPrice }
            b.account.orders,
          positions :=
            updatePosition b.account.positions o.symbol o.side o.quantity
              fillPrice } }

/-- `PaperBroker._process_order` with the data-feed price it observed
passed explicitly (an unknown order id raises `KeyError`, which the
handler swallows without touching the account). -/
def processOrder (b : PaperBroker) (orderId execId : String)
    (currentPrice : ℚ) : PaperBroker :=
  match alookup orderId b.account.orders with
  | none => b
  | some o =>
    match calcFillPrice b.slippage o currentPrice with
    | none =>
        { b with account := { b.account with
            orders := aupdate orderId
              { o with status := OrderStatus.REJECTED,
                       errorMessage := some "cannot fill at current price" }
              b.account.orders } }
    | some fp => fillOrder b orderId execId fp

/-- The `Order(...)` record built by `create_order`: a fresh PENDING
order with the requested parameters. -/
def newOrder (symbol : String) (side : OrderSide) (ty : OrderType)
    (quantity : ℚ) (price stopPrice : Option ℚ)
    (clientId freshOrderId : String) : Order :=
  { id := freshOrderId, clientId := clientId, symbol := symbol,
    side := side, type := ty, quantity := quantity, price := price,
    stopPrice := stopPrice, status := OrderStatus.PENDING,
    filledQuantity := 0, averagePrice := none, errorMessage := none }

/-- The non-idempotent tail of `PaperBroker.create_order`: validate, then
persist a fresh PENDING order and bind the client token. -/
def createOrderNew (b : PaperBroker) (symbol : String) (side : OrderSide)
    (ty : OrderType) (quantity : ℚ) (price stopPrice : Option ℚ)
    (clientId freshOrderId : String) (currentPrice : ℚ) :
    Except BrokerErr (PaperBroker × String) :=
  match validateOrder ty side quantity price stopPrice currentPrice
      b.account.balance with
  | some e => Except.error e
  | none =>
    Except.ok
      ({ b with
          account := { b.account with
            orders := aupdate freshOrderId
              (newOrder symbol side ty quantity price stopPrice clientId
                freshOrderId)
              b.account.orders },
          clientOrders := aupdate clientId freshOrderId b.clientOrders },
        freshOrderId)

/-- `PaperBroker.create_order`.  The caller-supplied (or freshly
generated) client token and the `uuid4` order id are explicit inputs; the
idempotency shortcut runs before validation, exactly as in the source. -/
def createOrder (b : PaperBroker) (symbol : String) (side : OrderSide)
    (ty : OrderType) (quantity : ℚ) (price stopPrice : Option ℚ)
    (clientId freshOrderId : String) (currentPrice : ℚ) :
    Except BrokerErr (PaperBroker × String) :=
  match alookup clientId b.clientOrders with
  | some existingId =>
    match alookup existingId b.account.orders with
    | some o =>
      if o.status = OrderStatus.PENDING ∨ o.status = OrderStatus.SUBMITTED then
        Except.ok (b, existingId)
      else
        createOrderNew b symbol side ty quantity price stopPrice clientId
          freshOrderId currentPrice
    | none =>
        createOrderNew b symbol side ty quantity price stopPrice clientId
          freshOrderId currentPrice
  | none =>
      createOrderNew b symbol side ty quantity price stopPrice clientId
        freshOrderId currentPrice

/-- `PaperBroker.cancel_order`: the returned boolean is the source's
return value. -/
def cancelOrder (b : PaperBroker) (orderId : String) : PaperBroker × Bool :=
  match alookup orderId b.account.orders with
  | none => (b, false)
  | some o =>
    if o.status = OrderStatus.FILLED ∨ o.status = OrderStatus.CANCELLED ∨
        o.status = OrderStatus.REJECTED then
      (b, false)
    else
      ({ b with account := { b.account with
          orders := aupdate orderId
            { o with status := OrderStatus.CANCELLED } b.account.orders } },
        true)

/-- One pass of `PaperBroker.update_positions_pnl` over a single
positions entry, against the data-feed prices `priceOf`. -/
def refreshPosition (priceOf : String → ℚ) (entry : String × Position) :
    String × Position :=
  let cur := priceOf entry.1
  let p := entry.2
  (entry.1,
    { p with unrealizedPnl :=
        if 0 < p.quantity then (cur - p.averagePrice) * p.quantity
        else (p.averagePrice - cur) * |p.quantity| })

/-- `PaperBroker.update_positions_pnl` with the data feed abstracted as a
total price function (the source skips a symbol whose feed lookup raises;
a total `priceOf` models the run in which every lookup succeeds). -/
def updatePositionsPnl (b : PaperBroker) (priceOf : String → ℚ) : PaperBroker :=
  { b with account := { b.account with
      positions := b.account.positions.map (refreshPosition priceOf) } }

/-- One externally triggered operation on the broker, carrying the oracle
inputs (fresh uuids, data-feed prices) the corresponding Python coroutine
observed when it ran. -/
inductive BrokerOp
  | create (symbol : String) (side : OrderSide) (ty : OrderType) (quantity : ℚ)
      (price stopPrice : Option ℚ) (clientId freshOrderId : String)
      (currentPrice : ℚ)
  | process (orderId execId : String) (currentPrice : ℚ)
  | cancel (orderId : String)
  | refresh (priceOf : String → ℚ)

/-- Effect of one operation on the broker state (a `create_order` call
that raises leaves the state as it was). -/
def applyOp (b : PaperBroker) : BrokerOp → PaperBroker
  | BrokerOp.create s sd ty q pr sp cid oid cp =>
      match createOrder b s sd ty q pr sp cid oid cp with
      | Except.ok r => r.1
      | Except.error _ => b
  | BrokerOp.process oid eid cp => processOrder b oid eid cp
  | BrokerOp.cancel oid => (cancelOrder b oid).1
  | BrokerOp.refresh f => updatePositionsPnl b f

/-- Run a sequence of operations left to right. -/
def runOps (b : PaperBroker) : List BrokerOp → PaperBroker
  | [] => b
  | op :: rest => runOps (applyOp b op) rest

/-- Cash effect of one recorded execution: a BUY debits notional plus
fee, a SELL credits notional minus fee. -/
def execCashDelta (e : Execution) : ℚ :=
  if e.side = OrderSide.BUY then -(e.quantity * e.price + e.fee)
  else e.quantity * e.price - e.fee

/-- Well-formedness of the order table, established by `_validate_order`
for every order that `create_order` persists: positive quantity, and a
positive limit price on LIMIT/STOP_LIMIT orders. -/
def ordersWF (orders : List (String × Order)) : Prop :=
  ∀ entry ∈ orders, 0 < entry.2.quantity ∧
    ((entry.2.type = OrderType.LIMIT ∨ entry.2.type = OrderType.STOP_LIMIT) →
      ∃ lp, entry.2.price = some lp ∧ 0 < lp)

/-- The data-feed price observed by a fill-evaluation operation is
non-negative (market prices; nothing is assumed about the other ops). -/
def opPriceNonneg : BrokerOp → Prop
  | BrokerOp.process _ _ cp => 0 ≤ cp
  | _ => True

/-! Concrete sample states used by witness and counterexample
theorems. -/

/-- A long position of 10 units at average price 100. -/
def longPos : Position :=
  { symbol := "EURUSD", quantity := 10, averagePrice := 100,
    unrealizedPnl := 0, realizedPnl := 0 }

/-- A short position of 10 units at average price 100. -/
def shortPos : Position :=
  { symbol := "EURUSD", quantity := -10, averagePrice := 100,
    unrealizedPnl := 0, realizedPnl := 0 }

/-- A resting LIMIT order that has reached the EXPIRED status. -/
def expiredOrder : Order :=
  { id := "o1", clientId := "c1", symbol := "EURUSD", side := OrderSide.BUY,
    type := OrderType.LIMIT, quantity := 1, price := some 1, stopPrice := none,
    status := OrderStatus.EXPIRED, filledQuantity := 0, averagePrice := none,
    errorMessage := none }

/-- Broker holding only `expiredOrder`. -/
def bExpired : PaperBroker :=
  { account := { balance := 1000, positions := [],
                 orders := [("o1", expiredOrder)], executions := [],
                 dailyPnl := 0, totalPnl := 0 },
    slippage := 1 / 10000, commission := 1 / 1000,
    clientOrders := [("c1", "o1")] }

/-- A PENDING MARKET BUY order bound to client token "c1". -/
def pendingOrder : Order :=
  { id := "o1", clientId := "c1", symbol := "EURUSD", side := OrderSide.BUY,
    type := OrderType.MARKET, quantity := 1, price := none, stopPrice := none,
    status := OrderStatus.PENDING, filledQuantity := 0, averagePrice := none,
    errorMessage := none }

/-- Broker holding only `pendingOrder`, token "c1" bound to it. -/
def bPending : PaperBroker :=
  { account := { balance := 1000, positions := [],
                 orders := [("o1", pendingOrder)], executions := [],
                 dailyPnl := 0, totalPnl := 0 },
    slippage := 1 / 10000, commission := 1 / 1000,
    clientOrders := [("c1", "o1")] }

/-- A MARKET BUY order (used to probe `_calculate_fill_price`). -/
def mktBuyOrder : Order :=
  { id := "o1", clientId := "c1", symbol := "S", side := OrderSide.BUY,
    type := OrderType.MARKET, quantity := 1, price := none, stopPrice := none,
    status := OrderStatus.PENDING, filledQuantity := 0, averagePrice := none,
    errorMessage := none }

/-- A BUY LIMIT order with limit price 100. -/
def limitBuyOrder : Order :=
  { id := "o1", clientId := "c1", symbol := "S", side := OrderSide.BUY,
    type := OrderType.LIMIT, quantity := 1, price := some 100,
    stopPrice := none, status := OrderStatus.PENDING, filledQuantity := 0,
    averagePrice := none, errorMessage := none }

/-- A SELL MARKET order for 15 units. -/
def sellMkt15 : Order :=
  { id := "o1", clientId := "c1", symbol := "EURUSD", side := OrderSide.SELL,
    type := OrderType.MARKET, quantity := 15, price := none, stopPrice := none,
    status := OrderStatus.PENDING, filledQuantity := 0, averagePrice := none,
    errorMessage := none }

/-- Broker long 10 @ 100 with the SELL-15 order pending: the spec's
direction-flip example. -/
def bLong : PaperBroker :=
  { account := { balance := 100000, positions := [("EURUSD", longPos)],
                 orders := [("o1", sellMkt15)], executions := [],
                 dailyPnl := 0, totalPnl := 0 },
    slippage := 1 / 10000, commission := 1 / 1000,
    clientOrders := [("c1", "o1")] }

/-- A BUY MARKET order for 100 units. -/
def buyOrder100 : Order :=
  { id := "o1", clientId := "c1", symbol := "EURUSD", side := OrderSide.BUY,
    type := OrderType.MARKET, quantity := 100, price := none,
    stopPrice := none, status := OrderStatus.PENDING, filledQuantity := 0,
    averagePrice := none, errorMessage := none }

/-- Broker with only 10 in cash but a pending BUY of 100 units. -/
def bPoor : PaperBroker :=
  { account := { balance := 10, positions := [],
                 orders := [("o1", buyOrder100)], executions := [],
                 dailyPnl := 0, totalPnl := 0 },
    slippage := 1 / 10000, commission := 1 / 1000,
    clientOrders := [("c1", "o1")] }

/-- A SELL MARKET order for 5 units. -/
def sellOrder5 : Order :=
  { id := "o1", clientId := "c1", symbol := "EURUSD", side := OrderSide.SELL,
    type := OrderType.MARKET, quantity := 5, price := none, stopPrice := none,
    status := OrderStatus.PENDING, filledQuantity := 0, averagePrice := none,
    errorMessage := none }

/-- Broker with zero cash and a pending SELL of 5 units. -/
def bSell : PaperBroker :=
  { account := { balance := 0, positions := [],
                 orders := [("o1", sellOrder5)], executions := [],
                 dailyPnl := 0, totalPnl := 0 },
    slippage := 1 / 10000, commission := 1 / 1000,
    clientOrders := [("c1", "o1")] }

/-- Broker holding one long and one short position. -/
def bTwoPositions : PaperBroker :=
  { account := { balance := 500, positions := [("A", longPos), ("B", shortPos)],
                 orders := [], executions := [], dailyPnl := 0, totalPnl := 0 },
    slippage := 1 / 10000, commission := 1 / 1000, clientOrders := [] }

/-! Association-list lemmas. -/

theorem alookup_aupdate_self {α : Type} (k : String) (v : α) :
    ∀ l : List (String × α), alookup k (aupdate k v l) = some v
  | [] => by simp [alookup, aupdate]
  | (k2, w) :: rest => by
      by_cases h : k2 = k
      · simp [alookup, aupdate, h]
      · simp [alookup, aupdate, h, alookup_aupdate_self k v rest]

theorem mem_aupdate {α : Type} {p : String × α} {k : String} {v : α} :
    ∀ {l : List (String × α)}, p ∈ aupdate k v l → p.2 = v ∨ p ∈ l
  | [], h => by
      simp only [aupdate, List.mem_singleton] at h
      exact Or.inl (by rw [h])
  | (k2, w) :: rest, h => by
      by_cases hk : k2 = k
      · simp only [aupdate, if_pos hk, List.mem_cons] at h
        rcases h with h | h
        · exact Or.inl (by rw [h])
        · exact Or.inr (List.mem_cons_of_mem _ h)
      · simp only [aupdate, if_neg hk, List.mem_cons] at h
        rcases h with h | h
        · exact Or.inr (by rw [h]; exact List.mem_cons_self _ _)
        · rcases mem_aupdate h with h2 | h2
          · exact Or.inl h2
          · exact Or.inr (List.mem_cons_of_mem _ h2)

theorem alookup_mem {α : Type} {k : String} {v : α} :
    ∀ {l : List (String × α)}, alookup k l = some v → (k, v) ∈ l
  | [], h => by simp [alookup] at h
  | (k2, w) :: rest, h => by
      by_cases hk : k2 = k
      · simp only [alookup, if_pos hk] at h
        subst hk
        injection h with h
        rw [h]
        exact List.mem_cons_self _ _
      · simp only [alookup, if_neg hk] at h
        exact List.mem_cons_of_mem _ (alookup_mem h)

/-! Frame lemmas about single operations. -/

/-- Every outcome of `applyOp` on a `create` operation: either the state
is unchanged (error or idempotency shortcut), or the validated fresh
order was persisted and the token bound. -/
theorem applyOp_create_cases (b : PaperBroker) (s : String) (sd : OrderSide)
    (ty : OrderType) (q : ℚ) (pr sp : Option ℚ) (cid oid : String) (cp : ℚ) :
    applyOp b (BrokerOp.create s sd ty q pr sp cid oid cp) = b ∨
    (validateOrder ty sd q pr sp cp b.account.balance = none ∧
      applyOp b (BrokerOp.create s sd ty q pr sp cid oid cp) =
        { b with
          account := { b.account with
            orders := aupdate oid (newOrder s sd ty q pr sp cid oid)
              b.account.orders },
          clientOrders := aupdate cid oid b.clientOrders }) := by
  cases h1 : alookup cid b.clientOrders with
  | none =>
      cases hv : validateOrder ty sd q pr sp cp b.account.balance with
      | some e =>
          left; simp [applyOp, createOrder, createOrderNew, h1, hv]
      | none =>
          right
          exact ⟨rfl, by simp [applyOp, createOrder, createOrderNew, h1, hv]⟩
  | some existingId =>
      cases h2 : alookup existingId b.account.orders with
      | none =>
          cases hv : validateOrder ty sd q pr sp cp b.account.balance with
          | some e =>
              left; simp [applyOp, createOrder, createOrderNew, h1, h2, hv]
          | none =>
              right
              exact ⟨rfl, by
                simp [applyOp, createOrder, createOrderNew, h1, h2, hv]⟩
      | some o =>
          by_cases hst : o.status = OrderStatus.PENDING ∨
              o.status = OrderStatus.SUBMITTED
          · left; simp [applyOp, createOrder, h1, h2, hst]
          · cases hv : validateOrder ty sd q pr sp cp b.account.balance with
            | some e =>
                left
                simp [applyOp, createOrder, createOrderNew, h1, h2, hst, hv]
            | none =>
                right
                exact ⟨rfl, by
                  simp [applyOp, createOrder, createOrderNew, h1, h2, hst, hv]⟩

/-- No operation changes the broker configuration (`slippage`,
`commission`) nor the account's realized-PnL accumulators (`total_pnl`,
`daily_pnl`): the paper broker never books realized PnL anywhere. -/
theorem applyOp_frame (b : PaperBroker) (op : BrokerOp) :
    (applyOp b op).slippage = b.slippage ∧
    (applyOp b op).commission = b.commission ∧
    (applyOp b op).account.totalPnl = b.account.totalPnl ∧
    (applyOp b op).account.dailyPnl = b.account.dailyPnl := by
  cases op with
  | create s sd ty q pr sp cid oid cp =>
      rcases applyOp_create_cases b s sd ty q pr sp cid oid cp with h | ⟨_, h⟩ <;>
        rw [h] <;> exact ⟨rfl, rfl, rfl, rfl⟩
  | process oid eid cp =>
      cases h : alookup oid b.account.orders with
      | none => simp [applyOp, processOrder, h]
      | some o =>
          cases hf : calcFillPrice b.slippage o cp with
          | none => simp [applyOp, processOrder, h, hf]
          | some fp =>
              by_cases hbuy : o.side = OrderSide.BUY ∧ b.account.balance <
                  o.quantity * fp + o.quantity * fp * b.commission
              · simp [applyOp, processOrder, fillOrder, h, hf, hbuy]
              · simp [applyOp, processOrder, fillOrder, h, hf, hbuy]
  | cancel oid =>
      cases h : alookup oid b.account.orders with
      | none => simp [applyOp, cancelOrder, h]
      | some o =>
          by_cases hst : o.status = OrderStatus.FILLED ∨
              o.status = OrderStatus.CANCELLED ∨ o.status = OrderStatus.REJECTED
          · simp [applyOp, cancelOrder, h, hst]
          · simp [applyOp, cancelOrder, h, hst]
  | refresh f => simp [applyOp, updatePositionsPnl]

/-- Realized PnL over whole operation sequences: never touched. -/
theorem runOps_pnl (ops : List BrokerOp) : ∀ b : PaperBroker,
    (runOps b ops).account.totalPnl = b.account.totalPnl ∧
      (runOps b ops).account.dailyPnl = b.account.dailyPnl := by
  induction ops with
  | nil => intro b; exact ⟨rfl, rfl⟩
  | cons op rest ih =>
      intro b
      have h1 := applyOp_frame b op
      have h2 := ih (applyOp b op)
      exact ⟨h2.1.trans h1.2.2.1, h2.2.trans h1.2.2.2⟩

/-- An order side is BUY or SELL. -/
theorem side_cases (s : OrderSide) :
    s = OrderSide.BUY ∨ s = OrderSide.SELL := by
  cases s
  · exact Or.inl rfl
  · exact Or.inr rfl

/-- SELL is not BUY (used to discharge side conditions in simp calls). -/
theorem sell_ne_buy : ¬ (OrderSide.SELL = OrderSide.BUY) :=
  fun h => OrderSide.noConfusion h

/-- BUY is not SELL. -/
theorem buy_ne_sell : ¬ (OrderSide.BUY = OrderSide.SELL) :=
  fun h => OrderSide.noConfusion h

/-- MARKET is not LIMIT. -/
theorem market_ne_limit : ¬ (OrderType.MARKET = OrderType.LIMIT) :=
  fun h => OrderType.noConfusion h

/-- MARKET is not STOP. -/
theorem market_ne_stop : ¬ (OrderType.MARKET = OrderType.STOP) :=
  fun h => OrderType.noConfusion h

/-- MARKET is not STOP_LIMIT. -/
theorem market_ne_stop_limit : ¬ (OrderType.MARKET = OrderType.STOP_LIMIT) :=
  fun h => OrderType.noConfusion h

/-- A request that passes `_validate_order` has a positive quantity, and
a positive limit price when its type requires one. -/
theorem validateOrder_none (ty : OrderType) (sd : OrderSide) (q : ℚ)
    (pr sp : Option ℚ) (cp bal : ℚ)
    (h : validateOrder ty sd q pr sp cp bal = none) :
    0 < q ∧ ((ty = OrderType.LIMIT ∨ ty = OrderType.STOP_LIMIT) →
      ∃ lp, pr = some lp ∧ 0 < lp) := by
  unfold validateOrder at h
  split_ifs at h with h1 h2 h3 h4 h5 h6
  refine ⟨by linarith [not_le.mp h1], ?_⟩
  intro hty
  cases hpr : pr with
  | none => exact absurd ⟨hty, hpr⟩ h2
  | some p =>
      refine ⟨p, rfl, ?_⟩
      rw [hpr] at h4
      simpa [optNonPos, not_le] using h4

/-- A SELL order that the fill engine prices gets a non-negative fill
price, provided the observed market price is non-negative, the slippage
rate is at most 1, and (for LIMIT/STOP_LIMIT) the stored limit price is
positive. -/
theorem calcFillPrice_sell_nonneg (s : ℚ) (o : Order) (cp fp : ℚ)
    (hs : s ≤ 1) (hcp : 0 ≤ cp) (hside : o.side = OrderSide.SELL)
    (hlp : (o.type = OrderType.LIMIT ∨ o.type = OrderType.STOP_LIMIT) →
      ∃ lp, o.price = some lp ∧ 0 < lp)
    (h : calcFillPrice s o cp = some fp) : 0 ≤ fp := by
  have hnb : ¬ o.side = OrderSide.BUY := by rw [hside]; intro hc; cases hc
  have hsell : 0 ≤ cp - cp * s := by nlinarith
  cases hty : o.type with
  | MARKET =>
      simp only [calcFillPrice, hty, if_neg hnb] at h
      injection h with h
      rw [← h]; exact hsell
  | LIMIT =>
      obtain ⟨lp, hpr, hpos⟩ := hlp (Or.inl hty)
      simp only [calcFillPrice, hty, hpr] at h
      split_ifs at h with hc1 hc2
      · exact absurd hc1.1 hnb
      · injection h with h; rw [← h]; exact hpos.le
  | STOP =>
      cases hsp : o.stopPrice with
      | none =>
          simp only [calcFillPrice, hty, hsp] at h
          cases h
      | some sp =>
          simp only [calcFillPrice, hty, hsp] at h
          split_ifs at h with hc1 hc2
          · exact absurd hc1.1 hnb
          · injection h with h; rw [← h]; exact hsell
  | STOP_LIMIT =>
      obtain ⟨lp, hpr, hpos⟩ := hlp (Or.inr hty)
      cases hsp : o.stopPrice with
      | none =>
          simp only [calcFillPrice, hty, hpr, hsp] at h
          cases h
      | some sp =>
          simp only [calcFillPrice, hty, hpr, hsp] at h
          split_ifs at h with hc1 hc2 hc3 hc4
          · injection h with h; rw [← h]; exact hpos.le
          · injection h with h; rw [← h]; exact hpos.le

/-- `ordersWF` is preserved by a dict write whose value satisfies the
per-order property. -/
theorem ordersWF_aupdate {orders : List (String × Order)} {k : String}
    {o : Order} (hwf : ordersWF orders)
    (ho : 0 < o.quantity ∧
      ((o.type = OrderType.LIMIT ∨ o.type = OrderType.STOP_LIMIT) →
        ∃ lp, o.price = some lp ∧ 0 < lp)) :
    ordersWF (aupdate k o orders) := by
  intro entry he
  rcases mem_aupdate he with h | h
  · rw [h]; exact ho
  · exact hwf entry h

/-- A status/error/fill-report update of a stored order preserves the
per-order well-formedness property. -/
theorem ordersWF_entry {orders : List (String × Order)} {k : String}
    {o : Order} (hwf : ordersWF orders)
    (h : alookup k orders = some o) :
    0 < o.quantity ∧
      ((o.type = OrderType.LIMIT ∨ o.type = OrderType.STOP_LIMIT) →
        ∃ lp, o.price = some lp ∧ 0 < lp) :=
  hwf (k, o) (alookup_mem h)

/-- One operation preserves non-negativity of the cash balance together
with order-table well-formedness, assuming the configured rates are at
most 1 and the fill evaluation observed a non-negative market price. -/
theorem applyOp_preserves (b : PaperBroker) (op : BrokerOp)
    (hs : b.slippage ≤ 1) (hc : b.commission ≤ 1)
    (hb : 0 ≤ b.account.balance) (hwf : ordersWF b.account.orders)
    (hp : opPriceNonneg op) :
    0 ≤ (applyOp b op).account.balance ∧
      ordersWF (applyOp b op).account.orders := by
  cases op with
  | create s sd ty q pr sp cid oid cp =>
      rcases applyOp_create_cases b s sd ty q pr sp cid oid cp with h | ⟨hv, h⟩
      · rw [h]; exact ⟨hb, hwf⟩
      · rw [h]
        refine ⟨hb, ordersWF_aupdate hwf ?_⟩
        exact validateOrder_none ty sd q pr sp cp b.account.balance hv
  | cancel oid =>
      cases h : alookup oid b.account.orders with
      | none => simpa [applyOp, cancelOrder, h] using ⟨hb, hwf⟩
      | some o =>
          by_cases hst : o.status = OrderStatus.FILLED ∨
              o.status = OrderStatus.CANCELLED ∨ o.status = OrderStatus.REJECTED
          · simpa [applyOp, cancelOrder, h, hst] using ⟨hb, hwf⟩
          · have hww := ordersWF_entry hwf h
            simp only [applyOp, cancelOrder, h]
            rw [if_neg hst]
            exact ⟨hb, ordersWF_aupdate hwf hww⟩
  | refresh f =>
      simpa [applyOp, updatePositionsPnl] using ⟨hb, hwf⟩
  | process oid eid cp =>
      have hcp : (0 : ℚ) ≤ cp := hp
      cases h : alookup oid b.account.orders with
      | none => simpa [applyOp, processOrder, h] using ⟨hb, hwf⟩
      | some o =>
          have hww := ordersWF_entry hwf h
          cases hf : calcFillPrice b.slippage o cp with
          | none =>
              simp only [applyOp, processOrder, h, hf]
              exact ⟨hb, ordersWF_aupdate hwf hww⟩
          | some fp =>
              simp only [applyOp, processOrder, h, hf, fillOrder]
              by_cases hbuy : o.side = OrderSide.BUY ∧ b.account.balance <
                  o.quantity * fp + o.quantity * fp * b.commission
              · rw [if_pos hbuy]
                exact ⟨hb, ordersWF_aupdate hwf hww⟩
              · rw [if_neg hbuy]
                refine ⟨?_, ordersWF_aupdate hwf hww⟩
                rcases side_cases o.side with hsd | hsd
                · have hcost : o.quantity * fp + o.quantity * fp * b.commission ≤
                      b.account.balance :=
                    not_lt.mp (fun hlt => hbuy ⟨hsd, hlt⟩)
                  rw [if_pos hsd]
                  show 0 ≤ b.account.balance -
                      (o.quantity * fp + o.quantity * fp * b.commission)
                  linarith
                · have hnb : ¬ o.side = OrderSide.BUY := by
                    rw [hsd]; intro hcon; cases hcon
                  rw [if_neg hnb]
                  have hfp : 0 ≤ fp :=
                    calcFillPrice_sell_nonneg b.slippage o cp fp hs hcp hsd
                      hww.2 hf
                  have hq : 0 < o.quantity := hww.1
                  have hdelta : 0 ≤ o.quantity * fp -
                      o.quantity * fp * b.commission := by
                    have hprod : 0 ≤ o.quantity * fp * (1 - b.commission) :=
                      mul_nonneg (mul_nonneg hq.le hfp) (by linarith)
                    nlinarith [hprod]
                  show 0 ≤ b.account.balance +
                      (o.quantity * fp - o.quantity * fp * b.commission)
                  linarith

/-- Balance non-negativity and order-table well-formedness over whole
operation sequences. -/
theorem runOps_preserves (ops : List BrokerOp) : ∀ b : PaperBroker,
    b.slippage ≤ 1 → b.commission ≤ 1 → 0 ≤ b.account.balance →
    ordersWF b.account.orders → (∀ op ∈ ops, opPriceNonneg op) →
    0 ≤ (runOps b ops).account.balance := by
  induction ops with
  | nil => intro b _ _ hb _ _; exact hb
  | cons op rest ih =>
      intro b hs hc hb hwf hops
      have hcfg := applyOp_frame b op
      have hstep := applyOp_preserves b op hs hc hb hwf
        (hops op (List.mem_cons_self _ _))
      show 0 ≤ (runOps (applyOp b op) rest).account.balance
      exact ih (applyOp b op) (by rw [hcfg.1]; exact hs)
        (by rw [hcfg.2.1]; exact hc) hstep.1 hstep.2
        (fun o ho => hops o (List.mem_cons_of_mem _ ho))

/-- Effect of one operation on the execution log and the balance: either
both are untouched, or exactly one execution is appended and the balance
moves by its cash delta, with the fee computed from the commission
rate. -/
theorem applyOp_execStep (b : PaperBroker) (op : BrokerOp) :
    ((applyOp b op).account.executions = b.account.executions ∧
      (applyOp b op).account.balance = b.account.balance) ∨
    (∃ e : Execution,
      (applyOp b op).account.executions = b.account.executions ++ [e] ∧
      (applyOp b op).account.balance = b.account.balance + execCashDelta e ∧
      e.fee = e.quantity * e.price * b.commission) := by
  cases op with
  | create s sd ty q pr sp cid oid cp =>
      rcases applyOp_create_cases b s sd ty q pr sp cid oid cp with h | ⟨_, h⟩ <;>
        rw [h] <;> exact Or.inl ⟨rfl, rfl⟩
  | cancel oid =>
      left
      cases h : alookup oid b.account.orders with
      | none => simp [applyOp, cancelOrder, h]
      | some o =>
          by_cases hst : o.status = OrderStatus.FILLED ∨
              o.status = OrderStatus.CANCELLED ∨ o.status = OrderStatus.REJECTED
          · simp [applyOp, cancelOrder, h, hst]
          · simp [applyOp, cancelOrder, h, hst]
  | refresh f => left; simp [applyOp, updatePositionsPnl]
  | process oid eid cp =>
      cases h : alookup oid b.account.orders with
      | none => left; simp [applyOp, processOrder, h]
      | some o =>
          cases hf : calcFillPrice b.slippage o cp with
          | none => left; simp [applyOp, processOrder, h, hf]
          | some fp =>
              simp only [applyOp, processOrder, h, hf, fillOrder]
              by_cases hbuy : o.side = OrderSide.BUY ∧ b.account.balance <
                  o.quantity * fp + o.quantity * fp * b.commission
              · rw [if_pos hbuy]; left; exact ⟨rfl, rfl⟩
              · rw [if_neg hbuy]
                right
                refine ⟨⟨eid, o.id, o.symbol, o.side, o.quantity, fp,
                    o.quantity * fp * b.commission⟩, rfl, ?_, rfl⟩
                rcases side_cases o.side with hsd | hsd
                · rw [if_pos hsd]
                  simp only [execCashDelta, hsd, if_pos]
                  ring
                · have hnb : ¬ o.side = OrderSide.BUY := by
                    rw [hsd]; intro hcon; cases hcon
                  rw [if_neg hnb]
                  simp only [execCashDelta, if_neg hnb]

/-- Splitting the per-execution cash deltas of a log into the BUY debits
and the SELL credits. -/
theorem sum_execCashDelta (l : List Execution) :
    (l.map execCashDelta).sum =
      -(((l.filter fun e => decide (e.side = OrderSide.BUY)).map
          (fun e => e.quantity * e.price + e.fee)).sum) +
      ((l.filter fun e => decide (e.side = OrderSide.SELL)).map
          (fun e => e.quantity * e.price - e.fee)).sum := by
  induction l with
  | nil => simp
  | cons e rest ih =>
      rcases side_cases e.side with h | h
      · have h2 : ¬ e.side = OrderSide.SELL := by
          rw [h]; intro hcon; cases hcon
        simp only [List.map_cons, List.sum_cons, List.filter_cons,
          execCashDelta, h, h2, ih]
        simp
        ring
      · have h2 : ¬ e.side = OrderSide.BUY := by
          rw [h]; intro hcon; cases hcon
        simp only [List.map_cons, List.sum_cons, List.filter_cons,
          execCashDelta, h, h2, ih]
        simp
        ring

/-- Accumulated form of `applyOp_execStep` over an operation sequence,
with the balance change written as a single signed sum. -/
theorem runOps_exec_aux (ops : List BrokerOp) : ∀ b : PaperBroker,
    ∃ newExecs : List Execution,
      (runOps b ops).account.executions = b.account.executions ++ newExecs ∧
      (runOps b ops).account.balance =
        b.account.balance + (newExecs.map execCashDelta).sum ∧
      ∀ e ∈ newExecs, e.fee = e.quantity * e.price * b.commission := by
  induction ops with
  | nil => intro b; exact ⟨[], by simp [runOps], by simp [runOps], by simp⟩
  | cons op rest ih =>
      intro b
      obtain ⟨n1, he1, hb1, hf1⟩ := ih (applyOp b op)
      have hcfg := applyOp_frame b op
      have hrun : runOps b (op :: rest) = runOps (applyOp b op) rest := rfl
      rcases applyOp_execStep b op with ⟨he, hbal⟩ | ⟨e, he, hbal, hfee⟩
      · refine ⟨n1, ?_, ?_, ?_⟩
        · rw [hrun, he1, he]
        · rw [hrun, hb1, hbal]
        · intro x hx
          rw [← hcfg.2.1]
          exact hf1 x hx
      · refine ⟨e :: n1, ?_, ?_, ?_⟩
        · rw [hrun, he1, he, List.append_assoc]
          rfl
        · rw [hrun, hb1, hbal, List.map_cons, List.sum_cons]
          ring
        · intro x hx
          rcases List.mem_cons.mp hx with hx | hx
          · rw [hx]; exact hfee
          · rw [← hcfg.2.1]
            exact hf1 x hx

/-! Claim theorems. -/

/-- C1 counterexample: at the spec's own example (long 10 @ 100, SELL
fill of 15 at price 120) the position does flip to short 5 @ 120, but no
realized PnL is booked anywhere: the account's `total_pnl` stays 0
instead of increasing by 200 as the claim states. -/
theorem fillOrder_flip_books_no_realized_pnl :
    (fillOrder bLong "o1" "e1" 120).account.totalPnl = 0 ∧
    alookup "EURUSD" (fillOrder bLong "o1" "e1" 120).account.positions =
      some { symbol := "EURUSD", quantity := -5, averagePrice := 120,
             unrealizedPnl := 0, realizedPnl := 0 } ∧
    ¬((fillOrder bLong "o1" "e1" 120).account.totalPnl =
        bLong.account.totalPnl + 200) := by
  refine ⟨?_, ?_, ?_⟩ <;>
    norm_num [fillOrder, bLong, sellMkt15, longPos, alookup, aupdate,
      updatePosition, freshPosition, sell_ne_buy]

/-- C1 (amended): on a direction-flipping fill the position update sets
the new quantity to q₀ + Δ and the average price to the fill price for
the remaining quantity, leaving the position's stored `realized_pnl`
untouched; and no operation ever adds anything to the account's realized
PnL (`total_pnl`, `daily_pnl`): the paper broker books no realized PnL
at all. -/
theorem updatePosition_flip_and_no_realized_pnl :
    (∀ (ps : List (String × Position)) (sym : String) (side : OrderSide)
        (q fp : ℚ) (pos : Position),
      alookup sym ps = some pos →
      ((0 < pos.quantity ∧
          (if side = OrderSide.BUY then pos.quantity + q
           else pos.quantity - q) < 0) ∨
        (pos.quantity < 0 ∧
          0 < (if side = OrderSide.BUY then pos.quantity + q
               else pos.quantity - q))) →
      alookup sym (updatePosition ps sym side q fp) =
        some { pos with
          quantity := if side = OrderSide.BUY then pos.quantity + q
            else pos.quantity - q,
          averagePrice := fp }) ∧
    (∀ (b : PaperBroker) (ops : List BrokerOp),
      (runOps b ops).account.totalPnl = b.account.totalPnl ∧
      (runOps b ops).account.dailyPnl = b.account.dailyPnl) := by
  constructor
  · intro ps sym side q fp pos hpos hflip
    have hne : ¬((if side = OrderSide.BUY then pos.quantity + q
        else pos.quantity - q) = 0) := by
      rcases hflip with ⟨_, h2⟩ | ⟨_, h2⟩
      · exact ne_of_lt h2
      · exact ne_of_gt h2
    have hsame : ¬((0 < pos.quantity ∧
          0 < (if side = OrderSide.BUY then pos.quantity + q
              else pos.quantity - q)) ∨
        (pos.quantity < 0 ∧
          (if side = OrderSide.BUY then pos.quantity + q
           else pos.quantity - q) < 0)) := by
      rcases hflip with ⟨ha, h2⟩ | ⟨ha, h2⟩ <;>
        rintro (⟨hb, hcc⟩ | ⟨hb, hcc⟩) <;> linarith
    simp only [updatePosition, hpos, Option.getD_some, if_neg hne,
      if_neg hsame]
    exact alookup_aupdate_self _ _ _
  · intro b ops
    exact runOps_pnl ops b

/-- C1 witness: the flip lemma applied at the spec example. -/
theorem updatePosition_flip_witness :
    alookup "EURUSD"
        (updatePosition [("EURUSD", longPos)] "EURUSD" OrderSide.SELL 15 120) =
      some { symbol := "EURUSD", quantity := -5, averagePrice := 120,
             unrealizedPnl := 0, realizedPnl := 0 } ∧
    (runOps (mkBroker 7) []).account.totalPnl =
      (mkBroker 7).account.totalPnl := by
  refine ⟨?_, (updatePosition_flip_and_no_realized_pnl.2 (mkBroker 7) []).1⟩
  have h1 := updatePosition_flip_and_no_realized_pnl.1 [("EURUSD", longPos)]
    "EURUSD" OrderSide.SELL 15 120 longPos (by norm_num [alookup])
    (Or.inl ⟨by norm_num [longPos],
      by norm_num [longPos, sell_ne_buy]⟩)
  norm_num [longPos, sell_ne_buy] at h1
  exact h1

/-- C2 counterexample: starting from balance 0 (non-negative), creating
a SELL MARKET order for 5 units and then processing it at an observed
market price of −10 fills it at −9.999 (slippage 0.0001) and drives the
balance to −9999·999/200000 ≈ −49.95 < 0: the SELL branch of
`_fill_order` performs no funds check, so the unconditional
never-negative claim fails at a negative observed price. -/
theorem runOps_negative_balance_from_negative_price :
    0 ≤ (mkBroker 0).account.balance ∧
    (runOps (mkBroker 0)
        [BrokerOp.create "EURUSD" OrderSide.SELL OrderType.MARKET 5 none none
          "c1" "o1" 1,
         BrokerOp.process "o1" "e1" (-10)]).account.balance < 0 := by
  constructor
  · norm_num [mkBroker]
  · norm_num [runOps, applyOp, createOrder, createOrderNew,
      validateOrder, optNonPos, processOrder, calcFillPrice, fillOrder,
      updatePosition, freshPosition, newOrder, alookup, aupdate, mkBroker,
      sell_ne_buy, market_ne_limit, market_ne_stop, market_ne_stop_limit]

/-- C2 (amended): starting from a non-negative balance, no operation
sequence can drive the cash balance negative, provided every fill
evaluation observes a non-negative market price and the configured
slippage and commission rates are at most 1 (the source constants are
0.0001 and 0.001); moreover a BUY fill whose total cost exceeds the
balance is not applied: the order is marked REJECTED and balance,
positions and executions are untouched. -/
theorem balance_never_negative :
    (∀ (b : PaperBroker) (ops : List BrokerOp),
      b.slippage ≤ 1 → b.commission ≤ 1 → 0 ≤ b.account.balance →
      ordersWF b.account.orders → (∀ op ∈ ops, opPriceNonneg op) →
      0 ≤ (runOps b ops).account.balance) ∧
    (∀ (b : PaperBroker) (orderId execId : String) (fp : ℚ) (o : Order),
      alookup orderId b.account.orders = some o →
      o.side = OrderSide.BUY →
      b.account.balance < o.quantity * fp + o.quantity * fp * b.commission →
      (fillOrder b orderId execId fp).account.balance = b.account.balance ∧
      (fillOrder b orderId execId fp).account.positions =
        b.account.positions ∧
      (fillOrder b orderId execId fp).account.executions =
        b.account.executions ∧
      alookup orderId (fillOrder b orderId execId fp).account.orders =
        some { o with
                status := OrderStatus.REJECTED,
                errorMessage :=
                  some "insufficient funds at execution time" }) := by
  constructor
  · intro b ops hs hc hb hwf hops
    exact runOps_preserves ops b hs hc hb hwf hops
  · intro b orderId execId fp o ho hside hover
    have hres : fillOrder b orderId execId fp =
        { b with account := { b.account with
            orders := aupdate orderId
              { o with
                status := OrderStatus.REJECTED,
                errorMessage :=
                  some "insufficient funds at execution time" }
              b.account.orders } } := by
      simp [fillOrder, ho, hside, hover]
    rw [hres]
    exact ⟨rfl, rfl, rfl, alookup_aupdate_self _ _ _⟩

/-- C2 witness: the invariant at a fresh broker running one fill
evaluation, and the over-cost BUY rejection at a concrete poor account. -/
theorem balance_never_negative_witness :
    0 ≤ (runOps (mkBroker 100) [BrokerOp.process "x" "e" 5]).account.balance ∧
    (fillOrder bPoor "o1" "e1" 10).account.balance = bPoor.account.balance := by
  constructor
  · refine balance_never_negative.1 (mkBroker 100) _ ?_ ?_ ?_ ?_ ?_
    · norm_num [mkBroker]
    · norm_num [mkBroker]
    · norm_num [mkBroker]
    · intro entry he
      simp [mkBroker] at he
    · intro op hop
      simp only [List.mem_singleton] at hop
      subst hop
      show (0 : ℚ) ≤ 5
      norm_num
  · exact (balance_never_negative.2 bPoor "o1" "e1" 10 buyOrder100 rfl rfl
      (by norm_num [bPoor, buyOrder100])).1

/-- C3 counterexample: `cancel_order` on an order whose status is
EXPIRED returns `true` and rewrites the order to CANCELLED, because the
source's terminal-state check lists only FILLED/CANCELLED/REJECTED. -/
theorem cancelOrder_expired_returns_true :
    (cancelOrder bExpired "o1").2 = true ∧
    alookup "o1" (cancelOrder bExpired "o1").1.account.orders =
      some { expiredOrder with status := OrderStatus.CANCELLED } :=
  ⟨rfl, rfl⟩

/-- C3 (amended): `cancel_order` returns false and leaves the state
unchanged when the order id is unknown or the order's status is FILLED,
CANCELLED or REJECTED; for an order in any other status (PENDING,
SUBMITTED, PARTIALLY_FILLED, and also EXPIRED) it sets the status to
CANCELLED and returns true, touching nothing else in the account. -/
theorem cancelOrder_terminal_classification (b : PaperBroker)
    (orderId : String) :
    (alookup orderId b.account.orders = none →
      cancelOrder b orderId = (b, false)) ∧
    (∀ o, alookup orderId b.account.orders = some o →
      ((o.status = OrderStatus.FILLED ∨ o.status = OrderStatus.CANCELLED ∨
          o.status = OrderStatus.REJECTED) →
        cancelOrder b orderId = (b, false)) ∧
      (¬(o.status = OrderStatus.FILLED ∨ o.status = OrderStatus.CANCELLED ∨
          o.status = OrderStatus.REJECTED) →
        (cancelOrder b orderId).2 = true ∧
        alookup orderId (cancelOrder b orderId).1.account.orders =
          some { o with status := OrderStatus.CANCELLED } ∧
        (cancelOrder b orderId).1.account.balance = b.account.balance ∧
        (cancelOrder b orderId).1.account.positions = b.account.positions ∧
        (cancelOrder b orderId).1.account.executions =
          b.account.executions)) := by
  constructor
  · intro h
    simp [cancelOrder, h]
  · intro o ho
    constructor
    · intro hst
      simp [cancelOrder, ho, hst]
    · intro hst
      have hres : cancelOrder b orderId =
          ({ b with account := { b.account with
              orders := aupdate orderId
                { o with status := OrderStatus.CANCELLED }
                b.account.orders } },
            true) := by
        simp [cancelOrder, ho, hst]
      rw [hres]
      exact ⟨rfl, alookup_aupdate_self _ _ _, rfl, rfl, rfl⟩

/-- C3 witness: cancelling a PENDING order succeeds; cancelling an
unknown id fails. -/
theorem cancelOrder_terminal_classification_witness :
    (cancelOrder bPending "o1").2 = true ∧
    cancelOrder bPending "zz" = (bPending, false) := by
  have h1 := ((cancelOrder_terminal_classification bPending "o1").2
    pendingOrder rfl).2 (by decide)
  have h2 := (cancelOrder_terminal_classification bPending "zz").1 rfl
  exact ⟨h1.1, h2⟩

/-- C4: a `create_order` call whose client token is already bound to an
order in status PENDING or SUBMITTED returns the existing order id with
the broker state completely unchanged. -/
theorem createOrder_idempotent_active_token (b : PaperBroker)
    (symbol : String) (side : OrderSide) (ty : OrderType) (quantity : ℚ)
    (price stopPrice : Option ℚ) (clientId freshOrderId : String) (cp : ℚ)
    (oid : String) (o : Order)
    (hbind : alookup clientId b.clientOrders = some oid)
    (ho : alookup oid b.account.orders = some o)
    (hst : o.status = OrderStatus.PENDING ∨
      o.status = OrderStatus.SUBMITTED) :
    createOrder b symbol side ty quantity price stopPrice clientId
      freshOrderId cp = Except.ok (b, oid) := by
  simp only [createOrder, hbind, ho, if_pos hst]

/-- C4 witness: resubmitting token "c1" returns the original order id
and the original broker state. -/
theorem createOrder_idempotent_active_token_witness :
    createOrder bPending "EURUSD" OrderSide.BUY OrderType.MARKET 1 none none
      "c1" "o2" 5 = Except.ok (bPending, "o1") :=
  createOrder_idempotent_active_token bPending "EURUSD" OrderSide.BUY
    OrderType.MARKET 1 none none "c1" "o2" 5 "o1" pendingOrder rfl rfl
    (Or.inl rfl)

/-- C5 counterexample: with the source's slippage rate 0.0001 (which is
non-negative) and a negative observed price −100, a MARKET BUY is priced
at −100.01, strictly below the observed price, refuting the claimed
unconditional bound `fill ≥ observed`. -/
theorem marketBuy_fill_below_negative_observed_price :
    calcFillPrice (1 / 10000) mktBuyOrder (-100) = some (-(10001 / 100)) ∧
    ¬((-100 : ℚ) ≤ -(10001 / 100)) := by
  constructor
  · norm_num [calcFillPrice, mktBuyOrder]
  · norm_num

/-- C5 (amended): the per-type fill-price case analysis of the claim,
with the MARKET taker-bound (BUY fill ≥ observed, SELL fill ≤ observed)
holding when the slippage rate AND the observed price are both
non-negative. -/
theorem calcFillPrice_per_type (s : ℚ) (o : Order) (cp : ℚ) :
    (o.type = OrderType.MARKET →
      calcFillPrice s o cp =
        some (if o.side = OrderSide.BUY then cp + cp * s
              else cp - cp * s)) ∧
    (o.type = OrderType.MARKET → 0 ≤ s → 0 ≤ cp →
      (o.side = OrderSide.BUY →
        ∀ fp, calcFillPrice s o cp = some fp → cp ≤ fp) ∧
      (o.side = OrderSide.SELL →
        ∀ fp, calcFillPrice s o cp = some fp → fp ≤ cp)) ∧
    (∀ lp, o.type = OrderType.LIMIT → o.price = some lp →
      calcFillPrice s o cp =
        if (o.side = OrderSide.BUY ∧ cp ≤ lp) ∨
            (o.side = OrderSide.SELL ∧ lp ≤ cp) then some lp else none) ∧
    (∀ sp, o.type = OrderType.STOP → o.stopPrice = some sp →
      calcFillPrice s o cp =
        if o.side = OrderSide.BUY ∧ sp ≤ cp then some (cp + cp * s)
        else if o.side = OrderSide.SELL ∧ cp ≤ sp then some (cp - cp * s)
        else none) ∧
    (∀ sp lp, o.type = OrderType.STOP_LIMIT → o.stopPrice = some sp →
      o.price = some lp →
      calcFillPrice s o cp =
        if (o.side = OrderSide.BUY ∧ sp ≤ cp ∧ cp ≤ lp) ∨
            (o.side = OrderSide.SELL ∧ cp ≤ sp ∧ lp ≤ cp) then some lp
        else none) := by
  refine ⟨?_, ?_, ?_, ?_, ?_⟩
  · intro hty
    rcases side_cases o.side with hsd | hsd <;>
      simp [calcFillPrice, hty, hsd]
  · intro hty hs hcp
    constructor
    · intro hsd fp h
      simp only [calcFillPrice, hty, if_pos hsd] at h
      injection h with h
      nlinarith [mul_nonneg hcp hs]
    · intro hsd fp h
      have hnb : ¬ o.side = OrderSide.BUY := by
        rw [hsd]; intro hc; cases hc
      simp only [calcFillPrice, hty, if_neg hnb] at h
      injection h with h
      nlinarith [mul_nonneg hcp hs]
  · intro lp hty hpr
    rcases side_cases o.side with hsd | hsd <;>
      by_cases hc1 : cp ≤ lp <;> by_cases hc2 : lp ≤ cp <;>
      simp [calcFillPrice, hty, hpr, hsd, hc1, hc2]
  · intro sp hty hsp
    rcases side_cases o.side with hsd | hsd <;>
      by_cases hc1 : sp ≤ cp <;> by_cases hc2 : cp ≤ sp <;>
      simp [calcFillPrice, hty, hsp, hsd, hc1, hc2]
  · intro sp lp hty hsp hpr
    rcases side_cases o.side with hsd | hsd <;>
      by_cases hc1 : sp ≤ cp <;> by_cases hc2 : cp ≤ sp <;>
      by_cases hc3 : cp ≤ lp <;> by_cases hc4 : lp ≤ cp <;>
      simp [calcFillPrice, hty, hsp, hpr, hsd, hc1, hc2, hc3, hc4]

/-- C5 witness: a BUY LIMIT at limit 100 against an observed price of 90
fills at exactly the limit price. -/
theorem calcFillPrice_per_type_witness :
    calcFillPrice (1 / 10000) limitBuyOrder 90 = some 100 := by
  have h := (calcFillPrice_per_type (1 / 10000) limitBuyOrder 90).2.2.1 100
    rfl rfl
  rw [h]
  norm_num [limitBuyOrder]

/-- C6: evaluating the position update at a short position of 10 @ 100
accumulated by a same-direction SELL of 10 @ 110: the code sets the
average price to (−10·100 + 10·110)/(−20) = −5, while the weighted
average of the claim is (q₀p₀ + Δ·fill)/q₁ = 105. -/
theorem updatePosition_short_accumulation_negative_avg :
    alookup "EURUSD"
        (updatePosition [("EURUSD", shortPos)] "EURUSD" OrderSide.SELL 10 110) =
      some { symbol := "EURUSD", quantity := -20, averagePrice := -5,
             unrealizedPnl := 0, realizedPnl := 0 } ∧
    ¬((-5 : ℚ) =
      (shortPos.quantity * shortPos.averagePrice + (-10) * 110) /
        (shortPos.quantity - 10)) := by
  constructor
  · norm_num [updatePosition, shortPos, alookup, aupdate, freshPosition,
      sell_ne_buy]
  · norm_num [shortPos]

/-- C7: over any operation sequence the final balance equals the initial
balance minus Σ(quantity·price + fee) over the BUY executions appended by
the sequence plus Σ(quantity·price − fee) over the appended SELL
executions, exactly, with every appended fee equal to
quantity·price·commission; operations that append no execution leave the
balance unchanged. -/
theorem runOps_balance_conservation (b : PaperBroker)
    (ops : List BrokerOp) :
    ∃ newExecs : List Execution,
      (runOps b ops).account.executions =
        b.account.executions ++ newExecs ∧
      (runOps b ops).account.balance =
        b.account.balance
          - (((newExecs.filter fun e => decide (e.side = OrderSide.BUY)).map
              (fun e => e.quantity * e.price + e.fee)).sum)
          + (((newExecs.filter fun e => decide (e.side = OrderSide.SELL)).map
              (fun e => e.quantity * e.price - e.fee)).sum) ∧
      ∀ e ∈ newExecs, e.fee = e.quantity * e.price * b.commission := by
  obtain ⟨n, he, hb, hf⟩ := runOps_exec_aux ops b
  refine ⟨n, he, ?_, hf⟩
  rw [hb, sum_execCashDelta]
  ring

/-- C8 counterexample: a STOP_LIMIT request with a present but negative
limit price and a missing stop price is rejected for the missing stop
price, not for the invalid limit price: the positivity check on the
limit price runs after the missing-stop-price check, contradicting the
claimed ordering. -/
theorem validateOrder_stop_before_limit_positivity :
    validateOrder OrderType.STOP_LIMIT OrderSide.BUY 1 (some (-1)) none 0 0 =
      some BrokerErr.missingStopPrice ∧
    BrokerErr.missingStopPrice ≠ BrokerErr.missingLimitPrice ∧
    BrokerErr.missingStopPrice ≠ BrokerErr.nonPositiveLimitPrice := by
  refine ⟨?_, by decide, by decide⟩
  norm_num [validateOrder, optNonPos, Option.some_ne_none]

/-- C8 (amended): the validation rules run in the source order with the
first failure winning: non-positive quantity; missing limit price for
LIMIT/STOP_LIMIT; missing stop price for STOP/STOP_LIMIT (checked before
the positivity of a present limit price); non-positive present limit
price; non-positive present stop price; a request passing all five can
only still fail the MARKET-BUY funds pre-check. -/
theorem validateOrder_rule_order (ty : OrderType) (sd : OrderSide) (q : ℚ)
    (pr sp : Option ℚ) (cp bal : ℚ) :
    (q ≤ 0 →
      validateOrder ty sd q pr sp cp bal = some BrokerErr.invalidQuantity) ∧
    (0 < q → (ty = OrderType.LIMIT ∨ ty = OrderType.STOP_LIMIT) →
      pr = none →
      validateOrder ty sd q pr sp cp bal =
        some BrokerErr.missingLimitPrice) ∧
    (0 < q →
      ¬((ty = OrderType.LIMIT ∨ ty = OrderType.STOP_LIMIT) ∧ pr = none) →
      (ty = OrderType.STOP ∨ ty = OrderType.STOP_LIMIT) → sp = none →
      validateOrder ty sd q pr sp cp bal =
        some BrokerErr.missingStopPrice) ∧
    (∀ p, 0 < q →
      ¬((ty = OrderType.LIMIT ∨ ty = OrderType.STOP_LIMIT) ∧ pr = none) →
      ¬((ty = OrderType.STOP ∨ ty = OrderType.STOP_LIMIT) ∧ sp = none) →
      pr = some p → p ≤ 0 →
      validateOrder ty sd q pr sp cp bal =
        some BrokerErr.nonPositiveLimitPrice) ∧
    (∀ p, 0 < q →
      ¬((ty = OrderType.LIMIT ∨ ty = OrderType.STOP_LIMIT) ∧ pr = none) →
      ¬((ty = OrderType.STOP ∨ ty = OrderType.STOP_LIMIT) ∧ sp = none) →
      ¬ optNonPos pr → sp = some p → p ≤ 0 →
      validateOrder ty sd q pr sp cp bal =
        some BrokerErr.nonPositiveStopPrice) ∧
    (0 < q →
      ¬((ty = OrderType.LIMIT ∨ ty = OrderType.STOP_LIMIT) ∧ pr = none) →
      ¬((ty = OrderType.STOP ∨ ty = OrderType.STOP_LIMIT) ∧ sp = none) →
      ¬ optNonPos pr → ¬ optNonPos sp →
      (validateOrder ty sd q pr sp cp bal = none ∨
        (validateOrder ty sd q pr sp cp bal =
            some BrokerErr.insufficientFunds ∧
          ty = OrderType.MARKET ∧ sd = OrderSide.BUY ∧
          bal < q * cp))) := by
  refine ⟨?_, ?_, ?_, ?_, ?_, ?_⟩
  · intro h
    unfold validateOrder
    rw [if_pos h]
  · intro hq hty hpr
    unfold validateOrder
    rw [if_neg (not_le.mpr hq), if_pos (And.intro hty hpr)]
  · intro hq h2 hty hsp
    unfold validateOrder
    rw [if_neg (not_le.mpr hq), if_neg h2, if_pos (And.intro hty hsp)]
  · intro p hq h2 h3 hpr hple
    unfold validateOrder
    rw [if_neg (not_le.mpr hq), if_neg h2, if_neg h3,
      if_pos (show optNonPos pr by rw [hpr]; exact hple)]
  · intro p hq h2 h3 h4 hsp hple
    unfold validateOrder
    rw [if_neg (not_le.mpr hq), if_neg h2, if_neg h3, if_neg h4,
      if_pos (show optNonPos sp by rw [hsp]; exact hple)]
  · intro hq h2 h3 h4 h5
    unfold validateOrder
    rw [if_neg (not_le.mpr hq), if_neg h2, if_neg h3, if_neg h4, if_neg h5]
    by_cases hfin : ty = OrderType.MARKET ∧ sd = OrderSide.BUY ∧
        bal < q * cp
    · rw [if_pos hfin]
      exact Or.inr ⟨rfl, hfin.1, hfin.2.1, hfin.2.2⟩
    · rw [if_neg hfin]
      exact Or.inl rfl

/-- C8 witness: the first rule at a zero quantity. -/
theorem validateOrder_rule_order_witness :
    validateOrder OrderType.MARKET OrderSide.BUY 0 none none 1 100 =
      some BrokerErr.invalidQuantity :=
  (validateOrder_rule_order OrderType.MARKET OrderSide.BUY 0 none none 1
    100).1 (by norm_num)

/-- C9: the PnL refresh recomputes, for every open position, unrealized
PnL as (current − avg)·q for a long and (avg − current)·|q| for a short,
and changes nothing else: balance, realized PnL, orders, executions, and
each position's quantity, average price and stored realized PnL are
untouched. -/
theorem updatePositionsPnl_formula_and_frame (b : PaperBroker)
    (priceOf : String → ℚ) :
    ((updatePositionsPnl b priceOf).account.balance = b.account.balance ∧
     (updatePositionsPnl b priceOf).account.totalPnl =
       b.account.totalPnl ∧
     (updatePositionsPnl b priceOf).account.dailyPnl =
       b.account.dailyPnl ∧
     (updatePositionsPnl b priceOf).account.orders = b.account.orders ∧
     (updatePositionsPnl b priceOf).account.executions =
       b.account.executions) ∧
    (∀ sym pos, (sym, pos) ∈ b.account.positions →
      (0 < pos.quantity →
        (sym, { pos with unrealizedPnl :=
            (priceOf sym - pos.averagePrice) * pos.quantity }) ∈
          (updatePositionsPnl b priceOf).account.positions) ∧
      (pos.quantity < 0 →
        (sym, { pos with unrealizedPnl :=
            (pos.averagePrice - priceOf sym) * |pos.quantity| }) ∈
          (updatePositionsPnl b priceOf).account.positions)) ∧
    (∀ entry ∈ (updatePositionsPnl b priceOf).account.positions,
      ∃ pos, (entry.1, pos) ∈ b.account.positions ∧
        entry.2.quantity = pos.quantity ∧
        entry.2.averagePrice = pos.averagePrice ∧
        entry.2.realizedPnl = pos.realizedPnl) := by
  refine ⟨⟨rfl, rfl, rfl, rfl, rfl⟩, ?_, ?_⟩
  · intro sym pos hmem
    constructor
    · intro hq
      have heq : (sym, { pos with unrealizedPnl :=
          (priceOf sym - pos.averagePrice) * pos.quantity }) =
          refreshPosition priceOf (sym, pos) := by
        simp [refreshPosition, if_pos hq]
      rw [heq]
      exact List.mem_map_of_mem _ hmem
    · intro hq
      have hnq : ¬ 0 < pos.quantity := not_lt.mpr hq.le
      have heq : (sym, { pos with unrealizedPnl :=
          (pos.averagePrice - priceOf sym) * |pos.quantity| }) =
          refreshPosition priceOf (sym, pos) := by
        simp [refreshPosition, if_neg hnq]
      rw [heq]
      exact List.mem_map_of_mem _ hmem
  · intro entry hentry
    obtain ⟨x, hx, hxe⟩ := List.mem_map.mp hentry
    refine ⟨x.2, ?_, ?_, ?_, ?_⟩ <;> rw [← hxe] <;>
      first
        | simpa using hx
        | rfl

/-- C9 witness: refreshing the two-position account at price 50 leaves
the balance alone and sets the long position's unrealized PnL to
(50 − 100)·10. -/
theorem updatePositionsPnl_formula_witness :
    (updatePositionsPnl bTwoPositions (fun _ => 50)).account.balance =
      bTwoPositions.account.balance ∧
    ("A", { symbol := "EURUSD", quantity := 10, averagePrice := 100,
            unrealizedPnl := ((50 : ℚ) - 100) * 10, realizedPnl := 0 }) ∈
      (updatePositionsPnl bTwoPositions (fun _ => 50)).account.positions := by
  have h := updatePositionsPnl_formula_and_frame bTwoPositions (fun _ => 50)
  refine ⟨h.1.1, ?_⟩
  exact (h.2.1 "A" longPos (by simp [bTwoPositions])).1 (by norm_num [longPos])

/-- C10: a SELL fill is applied with no funds or position check: the
order is FILLED (never REJECTED), one execution is appended, the balance
moves up by exactly quantity·price·(1 − commission) — a strict increase
whenever quantity and price are positive and the commission rate is
below 1, independent of the current balance — and the creation-time
insufficient-funds pre-check can only fire for a MARKET BUY. -/
theorem sellFill_unchecked_credits_balance (b : PaperBroker)
    (orderId execId : String) (fp : ℚ) (o : Order)
    (ho : alookup orderId b.account.orders = some o)
    (hside : o.side = OrderSide.SELL) :
    (fillOrder b orderId execId fp).account.balance =
      b.account.balance + o.quantity * fp * (1 - b.commission) ∧
    (fillOrder b orderId execId fp).account.executions =
      b.account.executions ++
        [⟨execId, o.id, o.symbol, o.side, o.quantity, fp,
          o.quantity * fp * b.commission⟩] ∧
    alookup orderId (fillOrder b orderId execId fp).account.orders =
      some { o with
              status := OrderStatus.FILLED,
              filledQuantity := o.quantity,
              averagePrice := some fp } ∧
    (0 < o.quantity → 0 < fp → b.commission < 1 →
      b.account.balance < (fillOrder b orderId execId fp).account.balance) ∧
    (∀ (ty : OrderType) (sd : OrderSide) (q : ℚ) (pr sp : Option ℚ)
        (cp bal : ℚ),
      validateOrder ty sd q pr sp cp bal =
        some BrokerErr.insufficientFunds →
      ty = OrderType.MARKET ∧ sd = OrderSide.BUY) := by
  have hres : fillOrder b orderId execId fp =
      { b with account := { b.account with
          balance := b.account.balance +
            (o.quantity * fp - o.quantity * fp * b.commission),
          executions := b.account.executions ++
            [⟨execId, o.id, o.symbol, o.side, o.quantity, fp,
              o.quantity * fp * b.commission⟩],
          orders := aupdate orderId
            { o with
              status := OrderStatus.FILLED,
              filledQuantity := o.quantity,
              averagePrice := some fp }
            b.account.orders,
          positions := updatePosition b.account.positions o.symbol o.side
            o.quantity fp } } := by
    simp [fillOrder, ho, hside, sell_ne_buy]
  rw [hres]
  refine ⟨by ring, rfl, alookup_aupdate_self _ _ _, ?_, ?_⟩
  · intro hq hfp hc
    show b.account.balance < b.account.balance +
        (o.quantity * fp - o.quantity * fp * b.commission)
    have hpos : 0 < o.quantity * fp * (1 - b.commission) :=
      mul_pos (mul_pos hq hfp) (by linarith)
    nlinarith [hpos]
  · intro ty sd q pr sp cp bal h
    unfold validateOrder at h
    split_ifs at h with h1 h2 h3 h4 h5 h6
    all_goals try exact ⟨h6.1, h6.2.1⟩
    all_goals simp at h

/-- C10 witness: a SELL MARKET fill of 5 @ 10 on a zero-balance account
is applied and strictly increases the balance. -/
theorem sellFill_unchecked_witness :
    (fillOrder bSell "o1" "e1" 10).account.balance =
      bSell.account.balance + 5 * 10 * (1 - bSell.commission) ∧
    bSell.account.balance < (fillOrder bSell "o1" "e1" 10).account.balance := by
  have h := sellFill_unchecked_credits_balance bSell "o1" "e1" 10 sellOrder5
    rfl rfl
  exact ⟨h.1, h.2.2.2.1 (by norm_num [sellOrder5]) (by norm_num)
    (by norm_num [bSell])⟩

end PaperBrokerModel
